import Mathlib

/- Shallow embedding of src/index.js of the bill-processor Cloudflare worker.
   The worker gates incoming HTTP requests, forwards a base64 image to an
   external generative model, and normalizes the raw model reply into a JSON
   string.  The JavaScript built-ins JSON.parse, JSON.stringify and the two
   fence-extraction regular expressions are modelled concretely below. -/

namespace BillProcessor

/-- JSON values as produced by the JavaScript built-in JSON.parse.  Numbers
keep their source lexeme, which is faithful for every property studied here
since no claim depends on numeric arithmetic. -/
inductive JValue where
  | null : JValue
  | bool : Bool → JValue
  | num : String → JValue
  | str : String → JValue
  | arr : List JValue → JValue
  | obj : List (String × JValue) → JValue

/-- Whitespace accepted by the JSON grammar, as in ECMA-404. -/
def jsonWsChar (c : Char) : Bool :=
  c = ' ' || c = '\t' || c = '\n' || c = '\r'

/-- Skip leading JSON whitespace. -/
def skipJsonWs (cs : List Char) : List Char :=
  cs.dropWhile jsonWsChar

/-- Value of one hexadecimal digit, used by the \u escape of JSON strings. -/
def hexVal (c : Char) : Option Nat :=
  if '0' ≤ c ∧ c ≤ '9' then some (c.toNat - 48)
  else if 'a' ≤ c ∧ c ≤ 'f' then some (c.toNat - 87)
  else if 'A' ≤ c ∧ c ≤ 'F' then some (c.toNat - 55)
  else none

/-- Prepend a character to the content component of a string-parse result. -/
def consRes (c : Char) (r : Option (List Char × List Char)) :
    Option (List Char × List Char) :=
  r.map fun p => (c :: p.1, p.2)

/-- Parse the body of a JSON string after the opening quote, returning the
decoded content and the input remaining after the closing quote.  Mirrors the
JSON string grammar used by JSON.parse: raw control characters are rejected
and the escapes are the eight named ones plus \u with four hex digits. -/
def parseStringBody : List Char → Option (List Char × List Char)
  | [] => none
  | '\x22' :: rest => some ([], rest)
  | '\x5c' :: '\x22' :: rest => consRes '\x22' (parseStringBody rest)
  | '\x5c' :: '\x5c' :: rest => consRes '\x5c' (parseStringBody rest)
  | '\x5c' :: '/' :: rest => consRes '/' (parseStringBody rest)
  | '\x5c' :: 'b' :: rest => consRes '\x08' (parseStringBody rest)
  | '\x5c' :: 'f' :: rest => consRes '\x0c' (parseStringBody rest)
  | '\x5c' :: 'n' :: rest => consRes '\n' (parseStringBody rest)
  | '\x5c' :: 'r' :: rest => consRes '\r' (parseStringBody rest)
  | '\x5c' :: 't' :: rest => consRes '\t' (parseStringBody rest)
  | '\x5c' :: 'u' :: h1 :: h2 :: h3 :: h4 :: rest =>
    match hexVal h1, hexVal h2, hexVal h3, hexVal h4 with
    | some a, some b, some c, some d =>
      consRes (Char.ofNat (4096 * a + 256 * b + 16 * c + d)) (parseStringBody rest)
    | _, _, _, _ => none
  | '\x5c' :: _ => none
  | c :: rest =>
    if c.toNat < 32 then none else consRes c (parseStringBody rest)

/-- Split off a leading run of decimal digits. -/
def digitSpan (cs : List Char) : List Char × List Char :=
  (cs.takeWhile Char.isDigit, cs.dropWhile Char.isDigit)

/-- The integer part of a JSON number: 0, or a nonzero digit followed by
digits. -/
def parseIntPart : List Char → Option (List Char × List Char)
  | [] => none
  | '0' :: rest => some (['0'], rest)
  | c :: rest =>
    if c.isDigit then
      let s := digitSpan rest
      some (c :: s.1, s.2)
    else none

/-- The optional fraction part of a JSON number: a dot followed by at least
one digit. -/
def parseFracPart (cs : List Char) : Option (List Char × List Char) :=
  match cs with
  | '.' :: rest =>
    let s := digitSpan rest
    if s.1.isEmpty then none else some ('.' :: s.1, s.2)
  | _ => some ([], cs)

/-- The optional exponent part of a JSON number: e or E, an optional sign,
then at least one digit. -/
def parseExpPart (cs : List Char) : Option (List Char × List Char) :=
  match cs with
  | c :: rest =>
    if c = 'e' ∨ c = 'E' then
      match rest with
      | s :: rest2 =>
        if s = '+' ∨ s = '-' then
          let d := digitSpan rest2
          if d.1.isEmpty then none else some (c :: s :: d.1, d.2)
        else
          let d := digitSpan rest
          if d.1.isEmpty then none else some (c :: d.1, d.2)
      | [] => none
    else some ([], cs)
  | [] => some ([], cs)

/-- Parse a JSON number, returning its lexeme and the remaining input. -/
def parseNumberLex (cs : List Char) : Option (List Char × List Char) :=
  let sp : List Char × List Char :=
    match cs with
    | '-' :: rest => (['-'], rest)
    | _ => ([], cs)
  match parseIntPart sp.2 with
  | none => none
  | some (ip, cs2) =>
    match parseFracPart cs2 with
    | none => none
    | some (fp, cs3) =>
      match parseExpPart cs3 with
      | none => none
      | some (ep, cs4) => some (sp.1 ++ ip ++ fp ++ ep, cs4)

/-- Record a parsed object member the way the JavaScript runtime does when
JSON.parse builds an object: a repeated key overwrites the earlier value but
keeps the original insertion position. -/
def insertMember (ms : List (String × JValue)) (k : String) (v : JValue) :
    List (String × JValue) :=
  if ms.any (fun m => m.1 = k) then
    ms.map (fun m => if m.1 = k then (k, v) else m)
  else ms ++ [(k, v)]

/-- Fold a raw member list into the object JSON.parse would build. -/
def buildObj (ms : List (String × JValue)) : List (String × JValue) :=
  ms.foldl (fun acc m => insertMember acc m.1 m.2) []

mutual

/-- Parse one JSON value, fuel-indexed to make the recursion structural.  The
fuel provided by jsonParse below is always sufficient. -/
def parseValue : Nat → List Char → Option (JValue × List Char)
  | 0, _ => none
  | _ + 1, 'n' :: 'u' :: 'l' :: 'l' :: rest => some (JValue.null, rest)
  | _ + 1, 't' :: 'r' :: 'u' :: 'e' :: rest => some (JValue.bool true, rest)
  | _ + 1, 'f' :: 'a' :: 'l' :: 's' :: 'e' :: rest => some (JValue.bool false, rest)
  | _ + 1, '\x22' :: rest =>
    (parseStringBody rest).map fun p => (JValue.str (String.mk p.1), p.2)
  | fuel + 1, '[' :: rest =>
    match skipJsonWs rest with
    | ']' :: rest2 => some (JValue.arr [], rest2)
    | rest1 => (parseElements fuel rest1).map fun p => (JValue.arr p.1, p.2)
  | fuel + 1, '\x7b' :: rest =>
    match skipJsonWs rest with
    | '\x7d' :: rest2 => some (JValue.obj [], rest2)
    | rest1 => (parseMembers fuel rest1).map fun p => (JValue.obj (buildObj p.1), p.2)
  | _ + 1, cs =>
    (parseNumberLex cs).map fun p => (JValue.num (String.mk p.1), p.2)

/-- Parse a comma-separated list of array elements up to the closing
bracket. -/
def parseElements : Nat → List Char → Option (List JValue × List Char)
  | 0, _ => none
  | fuel + 1, cs =>
    match parseValue fuel (skipJsonWs cs) with
    | none => none
    | some (v, rest) =>
      match skipJsonWs rest with
      | ',' :: rest2 =>
        (parseElements fuel rest2).map fun p => (v :: p.1, p.2)
      | ']' :: rest2 => some ([v], rest2)
      | _ => none

/-- Parse a comma-separated list of object members up to the closing
brace. -/
def parseMembers : Nat → List Char → Option (List (String × JValue) × List Char)
  | 0, _ => none
  | fuel + 1, cs =>
    match skipJsonWs cs with
    | '\x22' :: rest =>
      match parseStringBody rest with
      | none => none
      | some (key, rest2) =>
        match skipJsonWs rest2 with
        | ':' :: rest3 =>
          match parseValue fuel (skipJsonWs rest3) with
          | none => none
          | some (v, rest4) =>
            match skipJsonWs rest4 with
            | ',' :: rest5 =>
              (parseMembers fuel rest5).map fun p => ((String.mk key, v) :: p.1, p.2)
            | '\x7d' :: rest5 => some ([(String.mk key, v)], rest5)
            | _ => none
        | _ => none
    | _ => none

end

/-- Model of the JavaScript built-in JSON.parse: parse one value surrounded by
optional whitespace, rejecting any trailing input.  Two fuel units per input
character always suffice. -/
def jsonParse (s : String) : Option JValue :=
  match parseValue (2 * s.length + 2) (skipJsonWs s.data) with
  | some (v, rest) => if (skipJsonWs rest).isEmpty then some v else none
  | none => none

/-- Lowercase hexadecimal digit, used by JSON.stringify control escapes. -/
def hexDigitChar (n : Nat) : Char :=
  if n < 10 then Char.ofNat (48 + n) else Char.ofNat (87 + n)

/-- Escape one character of a string the way JSON.stringify does: quote and
backslash get a backslash escape, the named control characters get their short
escapes, the remaining control characters get a \u00xx escape, and everything
else is copied verbatim. -/
def escapeChar (c : Char) : List Char :=
  if c = '\x22' then ['\x5c', '\x22']
  else if c = '\x5c' then ['\x5c', '\x5c']
  else if c = '\x08' then ['\x5c', 'b']
  else if c = '\x0c' then ['\x5c', 'f']
  else if c = '\n' then ['\x5c', 'n']
  else if c = '\r' then ['\x5c', 'r']
  else if c = '\t' then ['\x5c', 't']
  else if c.toNat < 32 then
    ['\x5c', 'u', '0', '0', hexDigitChar (c.toNat / 16), hexDigitChar (c.toNat % 16)]
  else [c]

/-- Serialize a string literal as JSON.stringify does. -/
def quoteString (s : String) : String :=
  String.mk ('\x22' :: (s.data.map escapeChar).flatten ++ ['\x22'])

mutual

/-- Model of the JavaScript built-in JSON.stringify with no spacing argument,
as called by the worker. -/
def stringify : JValue → String
  | JValue.null => "null"
  | JValue.bool true => "true"
  | JValue.bool false => "false"
  | JValue.num lexeme => lexeme
  | JValue.str s => quoteString s
  | JValue.arr elems => "[" ++ stringifyElems elems ++ "]"
  | JValue.obj fields => "\x7b" ++ stringifyMembers fields ++ "\x7d"

/-- Comma-separated serialization of array elements. -/
def stringifyElems : List JValue → String
  | [] => ""
  | [v] => stringify v
  | v :: vs => stringify v ++ "," ++ stringifyElems vs

/-- Comma-separated serialization of object members. -/
def stringifyMembers : List (String × JValue) → String
  | [] => ""
  | [(k, v)] => quoteString k ++ ":" ++ stringify v
  | (k, v) :: ms => quoteString k ++ ":" ++ stringify v ++ "," ++ stringifyMembers ms

end

/-- The diagnostic envelope built at src/index.js lines 170 to 173 when no
extraction attempt yields valid JSON: the serialization of an object holding
the raw reply and a fixed error message. -/
def envelope (responseText : String) : String :=
  stringify (JValue.obj
    [("raw_response", JValue.str responseText),
     ("error", JValue.str "Could not parse JSON from response")])

/-- The JavaScript regular-expression whitespace class backslash-s:
the characters matched by the \s atom of the two fence regexes. -/
def jsWsChar (c : Char) : Bool :=
  c = ' ' || c = '\t' || c = '\n' || c = '\r' || c = '\x0b' || c = '\x0c' ||
  c.toNat = 0xa0 || c.toNat = 0x1680 || (0x2000 ≤ c.toNat && c.toNat ≤ 0x200a) ||
  c.toNat = 0x2028 || c.toNat = 0x2029 || c.toNat = 0x202f || c.toNat = 0x205f ||
  c.toNat = 0x3000 || c.toNat = 0xfeff

/-- Does the pattern occur as a prefix of the input. -/
def startsWithChars : List Char → List Char → Bool
  | [], _ => true
  | _ :: _, [] => false
  | p :: ps, c :: cs => p = c && startsWithChars ps cs

/-- Does the closing part of a fence regex, backslash-s star followed by three
backticks, match at the head of the input.  Because a backtick is not
whitespace the greedy whitespace run is forced, so this test is exact. -/
def closingHere (cs : List Char) : Bool :=
  startsWithChars "```".data (cs.dropWhile jsWsChar)

/-- The lazy capture group of the fence regexes: starting from the given
position, take the shortest span after which the closing delimiter matches.
Returns none when no closing delimiter follows. -/
def lazyCapture : List Char → Option (List Char)
  | [] => none
  | c :: rest =>
    if closingHere (c :: rest) then some []
    else (lazyCapture rest).map (fun cap => c :: cap)

/-- Leftmost match of a fence regex given its literal opener, returning the
content of the capture group: at each start position the opener must occur
literally, the greedy whitespace run after it is skipped, and the lazy capture
runs to the earliest closing delimiter.  When no closing follows a given
opener the scan resumes one character later, as regex search does. -/
def matchFenceFrom (opener : List Char) : List Char → Option (List Char)
  | [] => none
  | c :: rest =>
    if startsWithChars opener (c :: rest) then
      match lazyCapture (((c :: rest).drop opener.length).dropWhile jsWsChar) with
      | some cap => some cap
      | none => matchFenceFrom opener rest
    else matchFenceFrom opener rest

/-- Capture group of the first regex at src/index.js line 159, the fenced
block labeled json. -/
def jsonFenceCapture (text : String) : Option String :=
  (matchFenceFrom "```json".data text.data).map String.mk

/-- Capture group of the second regex at src/index.js line 160, a generic
fenced block. -/
def genericFenceCapture (text : String) : Option String :=
  (matchFenceFrom "```".data text.data).map String.mk

/-- The jsonMatch value of src/index.js lines 159 and 160: the first regex
result when it is non-null, otherwise the second.  Note that a successful
match with an empty capture still short-circuits the disjunction. -/
def extractCapture (text : String) : Option String :=
  match jsonFenceCapture text with
  | some cap => some cap
  | none => genericFenceCapture text

/-- The string handed to JSON.parse at src/index.js lines 162 to 166: the
capture when jsonMatch is non-null and its group is a non-empty string, the
whole reply otherwise. -/
def parseTarget (responseText : String) : String :=
  match extractCapture responseText with
  | some cap => if cap = "" then responseText else cap
  | none => responseText

/-- The response normalization of src/index.js lines 156 to 176: parse the
selected content, reserialize it on success, and fall back to the diagnostic
envelope when parsing throws. -/
def normalizeResponse (responseText : String) : String :=
  match jsonParse (parseTarget responseText) with
  | some v => stringify v
  | none => envelope responseText

/-- Modelled from the spec: the ordered list of extraction attempts named in
section 4.3, namely the labeled fence content, the generic fence content and
the raw reply text. -/
def specAttempts (text : String) : List String :=
  (match jsonFenceCapture text with
   | some cap => [cap]
   | none => []) ++
  (match genericFenceCapture text with
   | some cap => [cap]
   | none => []) ++ [text]

/-- Modelled from the spec: the normalizer the claim describes, in which the
first attempt whose content parses successfully determines the result and
later attempts are still tried when an earlier content fails to parse. -/
def specNormalize (text : String) : String :=
  match (specAttempts text).filterMap jsonParse with
  | v :: _ => stringify v
  | [] => envelope text

/-- JavaScript property access on a parsed JSON value, with none standing for
undefined. -/
def jsGetField : JValue → String → Option JValue
  | JValue.obj ms, k => (ms.find? (fun m => m.1 = k)).map (fun m => m.2)
  | _, _ => none

/-- Chained property access after an earlier access. -/
def jsGetFieldOpt (v : Option JValue) (k : String) : Option JValue :=
  match v with
  | some u => jsGetField u k
  | none => none

/-- Is a JSON number lexeme the number zero, the only falsy numeric value that
JSON.parse can produce. -/
def numIsZero (lexeme : String) : Bool :=
  (lexeme.data.takeWhile (fun c => !(c = 'e' || c = 'E'))).all
    (fun c => !c.isDigit || c = '0')

/-- JavaScript truthiness of a possibly absent JSON value. -/
def jsTruthy : Option JValue → Bool
  | none => false
  | some JValue.null => false
  | some (JValue.bool b) => b
  | some (JValue.num lexeme) => !numIsZero lexeme
  | some (JValue.str s) => !(s = "")
  | some (JValue.arr _) => true
  | some (JValue.obj _) => true

/-- Substring search with the semantics of the JavaScript String includes
method: does the needle occur contiguously anywhere in the haystack. -/
def containsSub (needle : List Char) : List Char → Bool
  | [] => startsWithChars needle []
  | c :: rest => startsWithChars needle (c :: rest) || containsSub needle rest

/-- The test origin.includes(entry) of src/index.js line 70, and the test
contentType.includes of line 91. -/
def strIncludes (s sub : String) : Bool :=
  containsSub sub.data s.data

/-- The JavaScript String startsWith method, used by the MIME check of
src/index.js line 103. -/
def strStartsWith (s pre : String) : Bool :=
  startsWithChars pre.data s.data

/-- An incoming HTTP request as the worker observes it.  The origin and
contentType fields are the respective header lookups, none standing for an
absent header.  The body field is the outcome of await request.json(): when
the request body is not syntactically valid JSON the built-in throws and the
error constructor carries the message of the thrown SyntaxError. -/
structure Request where
  method : String
  origin : Option String
  contentType : Option String
  body : Except String JValue

/-- An outgoing HTTP response: status, body text when present, and headers in
construction order. -/
structure Response where
  status : Nat
  body : Option String
  headers : List (String × String)
deriving Repr, DecidableEq

/-- The value the handler produces together with the number of invocations of
the external generation call, used to express that no external call is made
on a rejected request and that a failing call is not retried. -/
structure FetchResult where
  response : Response
  geminiCalls : Nat
deriving Repr, DecidableEq

/-- The allow-list of src/index.js lines 59 to 62. -/
def ALLOWED_ORIGINS : List String :=
  ["http://localhost:8000", "https://www.satyajeetnigade.in"]

/-- The handleCORS function of src/index.js lines 187 to 196: an empty body,
default status, and the CORS preflight headers. -/
def handleCORS (origin : Option String) : Response :=
  { status := 200, body := none,
    headers :=
      [("Access-Control-Allow-Origin", origin.getD ""),
       ("Access-Control-Allow-Methods", "POST, OPTIONS"),
       ("Access-Control-Allow-Headers", "Content-Type, Origin"),
       ("Access-Control-Max-Age", "86400")] }

/-- The headers attached to a successful POST response at src/index.js lines
111 to 118. -/
def successHeaders (allowed : String) : List (String × String) :=
  [("Content-Type", "application/json"),
   ("Access-Control-Allow-Origin", allowed),
   ("Access-Control-Allow-Methods", "POST, OPTIONS"),
   ("Access-Control-Allow-Headers", "Content-Type, Origin")]

/-- The processImageWithGemini function of src/index.js lines 136 to 181,
abstracted over the single external generation call: a reply text is
normalized, and any failure of the call is rethrown with the Gemini API error
wrapper of line 179. -/
def processImageWithGemini (geminiOutcome : Except String String) :
    Except String String :=
  match geminiOutcome with
  | Except.ok responseText => Except.ok (normalizeResponse responseText)
  | Except.error msg => Except.error ("Gemini API error: " ++ msg)

/-- The allowedOrigin computation of src/index.js line 70: the first
allow-list entry contained in the Origin header, the header read as the empty
string when absent. -/
def allowedOriginOf (request : Request) : Option String :=
  ALLOWED_ORIGINS.find? fun allowed => strIncludes (request.origin.getD "") allowed

/-- The payload-shape test of src/index.js line 95: requestData.image,
image.base64Data and image.mimeType must all be truthy. -/
def payloadShapeOk (requestData : JValue) : Bool :=
  jsTruthy (jsGetField requestData "image") &&
  jsTruthy (jsGetFieldOpt (jsGetField requestData "image") "base64Data") &&
  jsTruthy (jsGetFieldOpt (jsGetField requestData "image") "mimeType")

/-- Modelled runtime message of the TypeError thrown at src/index.js line 103
when a truthy non-string mimeType reaches the startsWith call.  Its exact
text is runtime dependent and no claim depends on it. -/
def typeErrorMessage : String := "mimeType.startsWith is not a function"

/-- The invalid-shape message of src/index.js line 96. -/
def invalidShapeMessage : String :=
  "Invalid request format. Expected: \x7b image: \x7b base64Data: string, mimeType: string \x7d \x7d"

/-- The fetch handler of src/index.js lines 65 to 126.  The second argument
is the outcome the single external generation call would have, so that the
result can also record how many times that call actually runs. -/
def fetch (request : Request) (geminiOutcome : Except String String) :
    FetchResult :=
  if request.method = "OPTIONS" then
    ⟨handleCORS (allowedOriginOf request), 0⟩
  else if request.method ≠ "POST" then
    ⟨{ status := 405, body := some "Method not allowed", headers := [] }, 0⟩
  else
    match allowedOriginOf request with
    | none => ⟨{ status := 403, body := some "Not allowed", headers := [] }, 0⟩
    | some allowed =>
      if strIncludes (request.contentType.getD "") "application/json" then
        match request.body with
        | Except.error msg =>
          ⟨{ status := 500, body := some ("Error processing request: " ++ msg),
             headers := [] }, 0⟩
        | Except.ok requestData =>
          if payloadShapeOk requestData then
            match jsGetFieldOpt (jsGetField requestData "image") "mimeType" with
            | some (JValue.str mimeType) =>
              if strStartsWith mimeType "image/" then
                match processImageWithGemini geminiOutcome with
                | Except.ok result =>
                  ⟨{ status := 200, body := some result,
                     headers := successHeaders allowed }, 1⟩
                | Except.error msg =>
                  ⟨{ status := 500,
                     body := some ("Error processing request: " ++ msg),
                     headers := [] }, 1⟩
              else
                ⟨{ status := 400, body := some "File must be an image",
                   headers := [] }, 0⟩
            | _ =>
              ⟨{ status := 500,
                 body := some ("Error processing request: " ++ typeErrorMessage),
                 headers := [] }, 0⟩
          else
            ⟨{ status := 400, body := some invalidShapeMessage, headers := [] }, 0⟩
      else
        ⟨{ status := 400, body := some "Request must be application/json",
           headers := [] }, 0⟩

/-- A well-formed request body carrying a png image. -/
def validBody : JValue :=
  JValue.obj
    [("image", JValue.obj
      [("base64Data", JValue.str "aGVsbG8="),
       ("mimeType", JValue.str "image/png")])]

/-- A request that passes every gate check. -/
def validRequest : Request :=
  { method := "POST",
    origin := some "https://www.satyajeetnigade.in",
    contentType := some "application/json",
    body := Except.ok validBody }

/-- A POST request whose origin contains no allow-list entry. -/
def evilRequest : Request :=
  { method := "POST",
    origin := some "https://evil.example",
    contentType := some "application/json",
    body := Except.ok validBody }

/-- A GET request used to exercise the method gate. -/
def getRequest : Request :=
  { method := "GET",
    origin := some "https://www.satyajeetnigade.in",
    contentType := some "application/json",
    body := Except.ok validBody }

/-- A reply text on which the labeled fence matches with unparseable content
while the raw text as a whole is a valid JSON string literal. -/
def mixedFenceText : String := "\x22```json x ```\x22"

/-- A reply text holding a generic fenced block followed by a labeled fenced
block with different content. -/
def twoBlocksText : String :=
  "``` \x7b\x22a\x22:1\x7d ``` ```json \x7b\x22b\x22:2\x7d ```"

/-- A request body whose image is a pdf rather than an image. -/
def pdfBody : JValue :=
  JValue.obj
    [("image", JValue.obj
      [("base64Data", JValue.str "aGVsbG8="),
       ("mimeType", JValue.str "application/pdf")])]

/-- A gate-passing request carrying the pdf body. -/
def pdfRequest : Request :=
  { validRequest with body := Except.ok pdfBody }

/-- An OPTIONS preflight request. -/
def optionsRequest : Request :=
  { validRequest with method := "OPTIONS" }

/-- An otherwise valid request whose body failed to parse as JSON. -/
def badJsonRequest : Request :=
  { validRequest with body := Except.error "Unexpected token o in JSON at position 1" }

/-- Helper: a prefix test succeeds exactly when the haystack decomposes as the
needle followed by a remainder. -/
theorem startsWithChars_iff (needle hay : List Char) :
    startsWithChars needle hay = true ↔ ∃ rest, hay = needle ++ rest := by
  induction needle generalizing hay with
  | nil => simp [startsWithChars]
  | cons p ps ih =>
    cases hay with
    | nil => simp [startsWithChars]
    | cons c cs =>
      simp only [startsWithChars, Bool.and_eq_true, decide_eq_true_eq, ih,
        List.cons_append, List.cons.injEq]
      constructor
      · rintro ⟨h1, rest, h2⟩
        exact ⟨rest, h1.symm, h2⟩
      · rintro ⟨rest, h1, h2⟩
        exact ⟨h1.symm, rest, h2⟩

/-- Helper: the substring test of the JavaScript includes method succeeds
exactly when the needle occurs contiguously in the haystack. -/
theorem containsSub_iff (needle hay : List Char) :
    containsSub needle hay = true ↔ ∃ pre post, hay = pre ++ needle ++ post := by
  induction hay with
  | nil =>
    simp only [containsSub, startsWithChars_iff]
    constructor
    · rintro ⟨rest, h⟩
      exact ⟨[], rest, by simpa using h⟩
    · rintro ⟨pre, post, h⟩
      have h2 : pre = [] ∧ needle = [] ∧ post = [] := by simpa using h.symm
      exact ⟨[], by simp [h2.2.1]⟩
  | cons c cs ih =>
    simp only [containsSub, Bool.or_eq_true, startsWithChars_iff, ih]
    constructor
    · rintro (⟨rest, h⟩ | ⟨pre, post, h⟩)
      · exact ⟨[], rest, by simpa using h⟩
      · exact ⟨c :: pre, post, by simp [h]⟩
    · rintro ⟨pre, post, h⟩
      cases pre with
      | nil => exact Or.inl ⟨post, by simpa using h⟩
      | cons a pre2 =>
        simp only [List.cons_append, List.cons.injEq] at h
        exact Or.inr ⟨pre2, post, h.2⟩

/-- Helper: evaluation of the handler on the canonical gate-passing request,
for an external call that returns a reply text. -/
theorem fetch_validRequest_ok (t : String) :
    fetch validRequest (Except.ok t) =
      ⟨{ status := 200, body := some (normalizeResponse t),
         headers := successHeaders "https://www.satyajeetnigade.in" }, 1⟩ := rfl

/-- C7: a request whose method is neither POST nor OPTIONS is answered with
status 405 and exact body Method not allowed, whatever its origin, headers,
body or external outcome. -/
theorem C7_method_not_allowed (request : Request)
    (geminiOutcome : Except String String)
    (hOpt : request.method ≠ "OPTIONS") (hPost : request.method ≠ "POST") :
    fetch request geminiOutcome =
      ⟨{ status := 405, body := some "Method not allowed", headers := [] }, 0⟩ := by
  simp [fetch, hOpt, hPost]

/-- C7 witness: the GET request is answered 405. -/
theorem C7_method_not_allowed_witness :
    fetch getRequest (Except.ok "x") =
      ⟨{ status := 405, body := some "Method not allowed", headers := [] }, 0⟩ :=
  C7_method_not_allowed getRequest (Except.ok "x") (by decide) (by decide)

/-- C8: every OPTIONS request gets status 200 with an empty body and the CORS
preflight headers, including the max-age, allow-methods and allow-headers
entries, and is never answered 403 or 405. -/
theorem C8_options_preflight (request : Request)
    (geminiOutcome : Except String String) (h : request.method = "OPTIONS") :
    (fetch request geminiOutcome).response.status = 200 ∧
    (fetch request geminiOutcome).response.body = none ∧
    (fetch request geminiOutcome).response.headers =
      [("Access-Control-Allow-Origin", (allowedOriginOf request).getD ""),
       ("Access-Control-Allow-Methods", "POST, OPTIONS"),
       ("Access-Control-Allow-Headers", "Content-Type, Origin"),
       ("Access-Control-Max-Age", "86400")] ∧
    (fetch request geminiOutcome).response.status ≠ 403 ∧
    (fetch request geminiOutcome).response.status ≠ 405 := by
  simp [fetch, h, handleCORS]

/-- C8 witness: the OPTIONS request fixture gets the preflight response. -/
theorem C8_options_preflight_witness :
    (fetch optionsRequest (Except.ok "x")).response.status = 200 ∧
    (fetch optionsRequest (Except.ok "x")).response.body = none ∧
    (fetch optionsRequest (Except.ok "x")).response.headers =
      [("Access-Control-Allow-Origin", (allowedOriginOf optionsRequest).getD ""),
       ("Access-Control-Allow-Methods", "POST, OPTIONS"),
       ("Access-Control-Allow-Headers", "Content-Type, Origin"),
       ("Access-Control-Max-Age", "86400")] ∧
    (fetch optionsRequest (Except.ok "x")).response.status ≠ 403 ∧
    (fetch optionsRequest (Except.ok "x")).response.status ≠ 405 :=
  C8_options_preflight optionsRequest (Except.ok "x") rfl

/-- C5: a POST request whose origin header, read as empty when absent,
contains no allow-list entry as a substring is answered 403 Not allowed with
no external call and no dependence on body or content type, and indeed no
allow-list entry occurs inside the origin. -/
theorem C5_disallowed_origin (request : Request)
    (geminiOutcome : Except String String)
    (hM : request.method = "POST")
    (hO : ∀ entry ∈ ALLOWED_ORIGINS,
      strIncludes (request.origin.getD "") entry = false) :
    fetch request geminiOutcome =
      ⟨{ status := 403, body := some "Not allowed", headers := [] }, 0⟩ ∧
    ∀ entry ∈ ALLOWED_ORIGINS,
      ¬ ∃ pre post, (request.origin.getD "").data = pre ++ entry.data ++ post := by
  have hA : allowedOriginOf request = none := by
    unfold allowedOriginOf
    refine List.find?_eq_none.mpr fun entry hmem => ?_
    simp [hO entry hmem]
  constructor
  · simp [fetch, hM, hA]
  · intro entry hmem hex
    have hc : containsSub entry.data (request.origin.getD "").data = true :=
      (containsSub_iff entry.data (request.origin.getD "").data).mpr hex
    have := hO entry hmem
    unfold strIncludes at this
    rw [this] at hc
    exact Bool.false_ne_true hc

/-- C5 witness: a POST from an origin outside the allow-list is rejected. -/
theorem C5_disallowed_origin_witness :
    fetch evilRequest (Except.ok "x") =
      ⟨{ status := 403, body := some "Not allowed", headers := [] }, 0⟩ :=
  (C5_disallowed_origin evilRequest (Except.ok "x") rfl (by decide)).1

/-- C6: a POST request passing the origin, content-type and payload-shape
checks whose mimeType string does not start with the image prefix is answered
400 File must be an image and the external call never runs. -/
theorem C6_non_image_rejected (request : Request)
    (geminiOutcome : Except String String) (allowed mimeType : String)
    (requestData : JValue)
    (hM : request.method = "POST")
    (hA : allowedOriginOf request = some allowed)
    (hCT : strIncludes (request.contentType.getD "") "application/json" = true)
    (hB : request.body = Except.ok requestData)
    (hShape : payloadShapeOk requestData = true)
    (hMT : jsGetFieldOpt (jsGetField requestData "image") "mimeType" =
      some (JValue.str mimeType))
    (hNI : strStartsWith mimeType "image/" = false) :
    fetch request geminiOutcome =
      ⟨{ status := 400, body := some "File must be an image", headers := [] }, 0⟩ := by
  simp [fetch, hM, hA, hCT, hB, hShape, hMT, hNI]

/-- C6 witness: an application-pdf payload is rejected with 400. -/
theorem C6_non_image_rejected_witness :
    fetch pdfRequest (Except.ok "x") =
      ⟨{ status := 400, body := some "File must be an image", headers := [] }, 0⟩ :=
  C6_non_image_rejected pdfRequest (Except.ok "x")
    "https://www.satyajeetnigade.in" "application/pdf" pdfBody
    rfl rfl (by decide) rfl rfl rfl rfl

/-- C9: when a POST with allowed origin and a JSON content type carries a body
that is not valid JSON, the thrown body-parse error lands in the generic
handler: status 500 with a body that is the generic prefix followed by the
parse message, not a 400 client error. -/
theorem C9_invalid_body_is_500 (request : Request)
    (geminiOutcome : Except String String) (allowed msg : String)
    (hM : request.method = "POST")
    (hA : allowedOriginOf request = some allowed)
    (hCT : strIncludes (request.contentType.getD "") "application/json" = true)
    (hB : request.body = Except.error msg) :
    fetch request geminiOutcome =
      ⟨{ status := 500,
         body := some ("Error processing request: " ++ msg), headers := [] }, 0⟩ := by
  simp [fetch, hM, hA, hCT, hB]

/-- C9 witness: the malformed-body fixture is answered 500 with the generic
prefix. -/
theorem C9_invalid_body_is_500_witness :
    fetch badJsonRequest (Except.ok "x") =
      ⟨{ status := 500,
         body := some ("Error processing request: " ++
           "Unexpected token o in JSON at position 1"), headers := [] }, 0⟩ :=
  C9_invalid_body_is_500 badJsonRequest (Except.ok "x")
    "https://www.satyajeetnigade.in" "Unexpected token o in JSON at position 1"
    rfl rfl (by decide) rfl

/-- C4: when the external generation call throws with message m on a
gate-passing request, the handler answers 500 with the generic prefix wrapping
the Gemini API error message, the underlying text m occurs in the body, and
the call is not retried: it runs exactly once. -/
theorem C4_external_failure_500 (request : Request) (m allowed mimeType : String)
    (requestData : JValue)
    (hM : request.method = "POST")
    (hA : allowedOriginOf request = some allowed)
    (hCT : strIncludes (request.contentType.getD "") "application/json" = true)
    (hB : request.body = Except.ok requestData)
    (hShape : payloadShapeOk requestData = true)
    (hMT : jsGetFieldOpt (jsGetField requestData "image") "mimeType" =
      some (JValue.str mimeType))
    (hImg : strStartsWith mimeType "image/" = true) :
    fetch request (Except.error m) =
      ⟨{ status := 500,
         body := some ("Error processing request: " ++ ("Gemini API error: " ++ m)),
         headers := [] }, 1⟩ ∧
    strIncludes ("Error processing request: " ++ ("Gemini API error: " ++ m)) m
      = true := by
  constructor
  · simp [fetch, hM, hA, hCT, hB, hShape, hMT, hImg, processImageWithGemini]
  · unfold strIncludes
    refine (containsSub_iff m.data _).mpr
      ⟨"Error processing request: Gemini API error: ".data, [], ?_⟩
    have hlit : "Error processing request: ".data ++ "Gemini API error: ".data =
        "Error processing request: Gemini API error: ".data := by decide
    simp [String.data_append, ← List.append_assoc, hlit]

/-- C4 witness: a quota failure of the external call surfaces as 500 with the
wrapped message, after exactly one call. -/
theorem C4_external_failure_500_witness :
    fetch validRequest (Except.error "quota exceeded") =
      ⟨{ status := 500,
         body := some ("Error processing request: " ++
           ("Gemini API error: " ++ "quota exceeded")),
         headers := [] }, 1⟩ ∧
    strIncludes ("Error processing request: " ++
      ("Gemini API error: " ++ "quota exceeded")) "quota exceeded" = true :=
  C4_external_failure_500 validRequest "quota exceeded"
    "https://www.satyajeetnigade.in" "image/png" validBody
    rfl rfl (by decide) rfl rfl rfl rfl

/-- Helper: when no fence regex matches, the whole reply is parsed. -/
theorem parseTarget_of_none (text : String) (h : extractCapture text = none) :
    parseTarget text = text := by
  unfold parseTarget
  rw [h]

/-- Helper: when the committed capture is empty, the whole reply is parsed. -/
theorem parseTarget_of_empty (text : String) (h : extractCapture text = some "") :
    parseTarget text = text := by
  unfold parseTarget
  rw [h]
  simp

/-- Helper: a non-empty committed capture is the string handed to the
parser. -/
theorem parseTarget_of_some (text cap : String)
    (h : extractCapture text = some cap) (hc : cap ≠ "") :
    parseTarget text = cap := by
  unfold parseTarget
  rw [h]
  simp [hc]

/-- C2: when the labeled fence content, the generic fence content and the raw
reply all fail to parse, the normalizer returns the diagnostic envelope
instead of raising, and the gate-passing request carrying that reply is
answered 200 with the envelope as body. -/
theorem C2_unparseable_reply_soft_failure (text : String)
    (h1 : (jsonFenceCapture text).all (fun cap => (jsonParse cap).isNone) = true)
    (h2 : (genericFenceCapture text).all (fun cap => (jsonParse cap).isNone) = true)
    (h3 : (jsonParse text).isNone = true) :
    normalizeResponse text = envelope text ∧
    fetch validRequest (Except.ok text) =
      ⟨{ status := 200, body := some (envelope text),
         headers := successHeaders "https://www.satyajeetnigade.in" }, 1⟩ := by
  have h3n : jsonParse text = none := by simpa using h3
  have henv : normalizeResponse text = envelope text := by
    unfold normalizeResponse
    rcases hx : extractCapture text with _ | cap
    · rw [parseTarget_of_none text hx, h3n]
    · by_cases hc : cap = ""
      · subst hc
        rw [parseTarget_of_empty text hx, h3n]
      · rw [parseTarget_of_some text cap hx hc]
        have hcap : jsonParse cap = none := by
          unfold extractCapture at hx
          revert hx
          cases hj : jsonFenceCapture text with
          | none =>
            intro hx
            simp only [] at hx
            rw [hx] at h2
            exact Option.isNone_iff_eq_none.mp (by simpa using h2)
          | some c1 =>
            intro hx
            have hx2 : c1 = cap := by simpa using hx
            rw [hj] at h1
            have h1n : jsonParse c1 = none :=
              Option.isNone_iff_eq_none.mp (by simpa using h1)
            rw [hx2] at h1n
            exact h1n
        rw [hcap]
  refine ⟨henv, ?_⟩
  rw [fetch_validRequest_ok text, henv]

/-- C2 witness: a reply with no fences and no JSON degrades to the envelope
inside a 200 response. -/
theorem C2_unparseable_reply_soft_failure_witness :
    normalizeResponse "not json at all" = envelope "not json at all" ∧
    fetch validRequest (Except.ok "not json at all") =
      ⟨{ status := 200, body := some (envelope "not json at all"),
         headers := successHeaders "https://www.satyajeetnigade.in" }, 1⟩ :=
  C2_unparseable_reply_soft_failure "not json at all"
    (by decide) (by decide) (by decide)

/-- C10: when the committed fence match captures an empty span the falsy
capture test makes the normalizer ignore the match and parse the entire raw
reply instead. -/
theorem C10_empty_capture_parses_raw (text : String)
    (h : extractCapture text = some "") :
    normalizeResponse text =
      (match jsonParse text with
       | some v => stringify v
       | none => envelope text) := by
  unfold normalizeResponse
  rw [parseTarget_of_empty text h]

/-- C10 witness: a reply that is a JSON string containing an empty fenced
block is parsed whole and reserialized unchanged. -/
theorem C10_empty_capture_parses_raw_witness :
    normalizeResponse "\x22``` ```\x22" = "\x22``` ```\x22" := by
  have h := C10_empty_capture_parses_raw "\x22``` ```\x22" (by decide)
  rw [h]
  decide

/-- C1 counterexample: on a reply whose labeled fence content fails to parse
while the raw reply is itself valid JSON, the code returns the envelope while
the first-successful-parse pipeline of the claim would return the
reserialized raw reply, so the claim as stated is false on this input. -/
theorem C1_counterexample :
    (jsonParse mixedFenceText).isSome = true ∧
    specNormalize mixedFenceText = mixedFenceText ∧
    normalizeResponse mixedFenceText = envelope mixedFenceText ∧
    normalizeResponse mixedFenceText ≠ specNormalize mixedFenceText := by
  decide

/-- C1 amended: the three strategies are ordered only at the matching level.
The first regex whose match has a non-empty capture commits the parse to that
capture, a failed parse of committed content yields the envelope without any
later attempt, and the raw reply is parsed exactly when no fence matches or
the committed capture is empty. -/
theorem C1_extraction_order_commits (text : String) :
    (∀ cap, jsonFenceCapture text = some cap → cap ≠ "" →
      normalizeResponse text =
        (match jsonParse cap with
         | some v => stringify v
         | none => envelope text)) ∧
    (jsonFenceCapture text = none →
      ∀ cap, genericFenceCapture text = some cap → cap ≠ "" →
      normalizeResponse text =
        (match jsonParse cap with
         | some v => stringify v
         | none => envelope text)) ∧
    ((extractCapture text = none ∨ extractCapture text = some "") →
      normalizeResponse text =
        (match jsonParse text with
         | some v => stringify v
         | none => envelope text)) := by
  refine ⟨?_, ?_, ?_⟩
  · intro cap hj hc
    have hx : extractCapture text = some cap := by
      unfold extractCapture
      rw [hj]
    unfold normalizeResponse
    rw [parseTarget_of_some text cap hx hc]
  · intro hj cap hg hc
    have hx : extractCapture text = some cap := by
      unfold extractCapture
      rw [hj, hg]
    unfold normalizeResponse
    rw [parseTarget_of_some text cap hx hc]
  · rintro (h | h)
    · unfold normalizeResponse
      rw [parseTarget_of_none text h]
    · unfold normalizeResponse
      rw [parseTarget_of_empty text h]

/-- C1 amended witness: on the mixed reply the labeled capture x commits, its
parse fails, and the envelope is returned although the raw reply parses. -/
theorem C1_extraction_order_commits_witness :
    normalizeResponse mixedFenceText = envelope mixedFenceText := by
  have h := (C1_extraction_order_commits mixedFenceText).1 "x" (by decide) (by decide)
  rw [h]
  decide

/-- C3 counterexample: a reply holding a generic fenced block followed by a
labeled fenced block is normalized from the second block, although the first
block carries valid JSON of its own, so the first-block claim is false on
this input. -/
theorem C3_counterexample :
    genericFenceCapture twoBlocksText = some "\x7b\x22a\x22:1\x7d" ∧
    (jsonParse "\x7b\x22a\x22:1\x7d").map stringify = some "\x7b\x22a\x22:1\x7d" ∧
    normalizeResponse twoBlocksText = "\x7b\x22b\x22:2\x7d" ∧
    normalizeResponse twoBlocksText ≠ "\x7b\x22a\x22:1\x7d" := by
  decide

/-- C3 amended: extraction is non-greedy, the lazy capture is the shortest
span after which a closing delimiter matches, and among the two regexes the
labeled fence is preferred over the generic one even when a generic block
occurs earlier in the reply. -/
theorem C3_lazy_capture_minimal_and_labeled_priority :
    (∀ cs cap, lazyCapture cs = some cap →
      ∃ rest, cs = cap ++ rest ∧ closingHere rest = true ∧
        ∀ n, n < cap.length → closingHere (cap.drop n ++ rest) = false) ∧
    (∀ text cap, jsonFenceCapture text = some cap →
      extractCapture text = some cap) := by
  constructor
  · intro cs
    induction cs with
    | nil =>
      intro cap h
      simp [lazyCapture] at h
    | cons c rest ih =>
      intro cap h
      unfold lazyCapture at h
      by_cases hcl : closingHere (c :: rest) = true
      · rw [if_pos hcl] at h
        have hcap : cap = [] := by
          simpa using h.symm
        subst hcap
        exact ⟨c :: rest, rfl, hcl, fun n hn => absurd hn (by simp)⟩
      · have hclf : closingHere (c :: rest) = false := by
          simpa using hcl
        rw [if_neg hcl] at h
        rcases Option.map_eq_some'.mp h with ⟨cap2, h1, h2⟩
        obtain ⟨rest2, hr, hcr, hmin⟩ := ih cap2 h1
        subst h2
        refine ⟨rest2, by simp [hr], hcr, ?_⟩
        intro n hn
        cases n with
        | zero =>
          simpa [← hr] using hclf
        | succ m =>
          have hm : m < cap2.length := by simpa using hn
          simpa using hmin m hm
  · intro text cap h
    unfold extractCapture
    rw [h]

/-- C3 amended witness: on a simple labeled reply the capture is committed to
the extraction result. -/
theorem C3_lazy_capture_minimal_and_labeled_priority_witness :
    extractCapture "```json 5 ```" = some "5" :=
  C3_lazy_capture_minimal_and_labeled_priority.2 "```json 5 ```" "5" (by decide)

end BillProcessor
